import Mathlib

/-!
Verification development for the typebridge tool (typebridge.c): a shallow
embedding of its type store, catalogue scanner, reachability analyzer
(require), operator locator (findOperator) and data-set compiler
(resolveTRDPDataSets), with theorems settling the specification claims.

C strings are modelled as `List Char` (no embedded NUL bytes); the global
`mid_map` array is modelled as a total function from `Int` (the C `long`
indices) to entries, zero-initialised like the C global.  C `int`/`long`
are modelled as `Int` except `ref_cnt`, which is only ever zeroed and
incremented, hence a `Nat`.  Recursive walks whose C counterparts can
diverge are given explicit fuel and return `Option`; `none` means the
fuel bound was hit.
-/

namespace Typebridge

/-- C strings (NUL-free byte strings) as lists of characters. -/
abbrev Str := List Char

/-- SCADE_MIDs, the bound of the identifier space (0x4000). -/
def SCADE_MIDs : Int := 16384

/-- KCG_SIZE_MAPS_TO: the fallback target id for the oversized "size" type. -/
def KCG_SIZE_MAPS_TO : Int := 6

/-- One slot of `mid_map` (struct type_entry). -/
structure TypeEntry where
  dataSetId : Str
  dsid : Int
  ref_cnt : Nat
  reference_of_mid : Int
  size : Int
  name : Option Str
deriving DecidableEq, Repr

/-- The zero-initialised entry of the C global array. -/
def defaultEntry : TypeEntry := ⟨[], 0, 0, 0, 0, none⟩

/-- The global `mid_map`, as a total function from model id to entry. -/
abbrev Store := Int → TypeEntry

/-- The store before any scanning (all zeroes). -/
def initStore : Store := fun _ => defaultEntry

/-- Write one slot of the store. -/
def updateStore (s : Store) (i : Int) (e : TypeEntry) : Store :=
  fun j => if j = i then e else s j

/-- The `mid_map[mid].ref_cnt++` side effect of require. -/
def bump (s : Store) (mid : Int) : Store :=
  updateStore s mid { s mid with ref_cnt := (s mid).ref_cnt + 1 }

/-- Diagnostics written to stderr, as structured events. -/
inductive Diag where
  | critRedefined (mid : Int)
  | errOffScope (mid : Int)
  | critRename (mid : Int) (oldName : Option Str) (proposed : Option Str)
  | critNotDefined (mid : Int)
  | errSelfRef (mid : Int)
  | errOutOfScope (mid : Int)
  | arrayOfArray (dsId : Str) (dsName : Option Str) (elName : Option Str)
      (dim1 dim2 : Int)
  | opNotDefined
  | opNotFound (nm : Str)
  | opAmbiguous (nm : Str)
  | opFound (nm : Str)
deriving DecidableEq, Repr

/-- One decimal digit as a character. -/
def digitChar (d : Nat) : Char := Char.ofNat (48 + d)

/-- Decimal digits of a Nat (fuel-driven; 24 digits cover every value the
tool produces).  Mirrors snprintf with format %d for the values in range. -/
def natToDigits : Nat → Nat → Str
  | 0, _ => []
  | f+1, n => if n < 10 then [digitChar n] else natToDigits f (n / 10) ++ [digitChar (n % 10)]

/-- Decimal rendering of a C integer (snprintf %d). -/
def intToStr (i : Int) : Str :=
  if i < 0 then ('-') :: natToDigits 24 i.natAbs else natToDigits 24 i.natAbs

/-- ScadeBaseTypes, the closed table of recognised primitive names. -/
def ScadeBaseTypes : List Str :=
  [[], ("bool").toList, ("char").toList, ("wchar").toList,
   ("int8").toList, ("int16").toList, ("int32").toList, ("int64").toList,
   ("uint8").toList, ("uint16").toList, ("uint32").toList, ("uint64").toList,
   ("float32").toList, ("float64").toList,
   ("timedate32").toList, ("timedate48").toList, ("timedate64").toList,
   ("size").toList]

/-- ScadeTypeIdx2TRDP, the canonical protocol codes (USE_TRDP_NUMTYPES = 0). -/
def ScadeTypeIdx2TRDP : List Str :=
  [[], ("BOOL8").toList, ("CHAR8").toList, ("UTF16").toList,
   ("INT8").toList, ("INT16").toList, ("INT32").toList, ("INT64").toList,
   ("UINT8").toList, ("UINT16").toList, ("UINT32").toList, ("UINT64").toList,
   ("REAL32").toList, ("REAL64").toList,
   ("TIMEDATE32").toList, ("TIMEDATE48").toList, ("TIMEDATE64").toList]

/-- count_of(ScadeTypeIdx2TRDP). -/
def TRDP_COUNT : Int := 17

/-- addType: insert a fresh entry at `mid`; the first definition wins.
`dsid ≤ 0 ∨ dsid ≥ 17` takes the user-defined branch (synthesised id
1000+mid, truncated to the 11 visible characters of the C buffer);
otherwise the primitive branch copies the canonical code. -/
def addType (s : Store) (mid : Int) (name : Option Str) (ty dsid cnt : Int) :
    Store × Bool × List Diag :=
  if 0 < mid ∧ mid < SCADE_MIDs then
    if (s mid).dsid ≤ 0 then
      if dsid ≤ 0 ∨ TRDP_COUNT ≤ dsid then
        (updateStore s mid ⟨(intToStr (1000 + mid)).take 11, 1000 + mid, 0, ty, cnt, name⟩,
         true, [])
      else
        (updateStore s mid ⟨(ScadeTypeIdx2TRDP.getD dsid.toNat []), dsid, 0, -1, 0, none⟩,
         true, [])
    else (s, false, [Diag.critRedefined mid])
  else (s, false, [Diag.errOffScope mid])

/-- strndup2: stitch s1 and s2 with `sep`; a single string is duplicated with
strndup (keeping at most the FIRST maxlen characters); two strings are
stitched and, when the result is longer than maxlen, cut from the FRONT
(keeping the trailing characters).  `l` counts the separator byte even when
`sep` is NUL, exactly as the C source does. -/
def strndup2 (s1 s2 : Option Str) (sep : Char) (maxlen : Nat) : Option Str :=
  if maxlen = 0 then none
  else
    match s1, s2 with
    | none, none => none
    | some a, none => some (a.take maxlen)
    | none, some b => some (b.take maxlen)
    | some a, some b =>
      let l := a.length + 1 + b.length
      let full := a ++ (if sep.toNat = 0 then [] else [sep]) ++ b
      some (if maxlen < l then full.drop (l - maxlen) else full)

/-- propagateName: attach `strndup2(pkgname, name, sep, 30)` to a still
anonymous structure entry; every other case fails and leaves the store
unchanged. -/
def propagateName (s : Store) (mid : Int) (name : Option Str) (pkgname : Option Str) :
    Store × Bool × List Diag :=
  if 0 < mid ∧ mid < SCADE_MIDs then
    if (s mid).reference_of_mid < 0 ∧ 0 < (s mid).size then
      if 0 < (s mid).dsid then
        if (s mid).name = none then
          (updateStore s mid { s mid with name := strndup2 pkgname name ('_') 30 },
           true, [])
        else (s, false, [Diag.critRename mid (s mid).name name])
      else (s, false, [Diag.critNotDefined mid])
    else (s, false, [])
  else (s, false, [])

/-! ## Reachability analyzer (require)

The C `require` is a recursive walk that mutates `ref_cnt`.  Its recursion
(one frame per entry, plus the field loop) is flattened into a single
fuel-driven function over a task type: `.one mid` is a call require(mid),
`.seq mid idx size` is the field loop `for (i=idx; i<=size; i++)`.
`none` means the fuel bound was hit (the C code would still be recursing). -/

inductive RTask where
  | one (mid : Int)
  | seq (mid idx size : Int)
deriving DecidableEq, Repr

/-- The body of require / its field loop.  Returns the mutated store, the
`sub > 0` flag (as 0/1, the C int return) resp. the loop's accumulated sum,
and the diagnostics written. -/
def requireGo : Nat → Store → RTask → Option (Store × Int × List Diag)
  | 0, _, _ => none
  | f+1, s, RTask.one mid =>
    if 0 < mid ∧ mid < SCADE_MIDs then
      if 0 < (s mid).reference_of_mid then
        if (s mid).reference_of_mid = mid then
          some (bump s mid, (if 0 < (s mid).size then 1 else 0), [Diag.errSelfRef mid])
        else
          (requireGo f (bump s mid) (RTask.one (s mid).reference_of_mid)).map
            (fun p => (p.1, (if 0 < (s mid).size + p.2.1 then 1 else 0), p.2.2))
      else
        (requireGo f (bump s mid) (RTask.seq mid 1 (s mid).size)).map
          (fun p => (p.1, (if 0 < (s mid).size + p.2.1 then 1 else 0), p.2.2))
    else some (s, 0, [Diag.errOutOfScope mid])
  | f+1, s, RTask.seq mid idx size =>
    if idx ≤ size then
      (requireGo f s (RTask.one (mid + idx))).bind (fun p =>
        (requireGo f p.1 (RTask.seq mid (idx + 1) size)).map
          (fun q => (q.1, p.2.1 + q.2.1, p.2.2 ++ q.2.2)))
    else some (s, 0, [])

/-- require(mid): the public entry point of the reachability analyzer. -/
def require (f : Nat) (s : Store) (mid : Int) : Option (Store × Int × List Diag) :=
  requireGo f s (RTask.one mid)

/-- How many times the walk started by `t` visits (increments) slot `j`.
Mirrors `requireGo` branch for branch, but reads only the static fields
`reference_of_mid` and `size`, which require never changes. -/
def visitGo : Nat → Store → RTask → Int → Nat
  | 0, _, _, _ => 0
  | f+1, s, RTask.one mid, j =>
    if 0 < mid ∧ mid < SCADE_MIDs then
      (if j = mid then 1 else 0) +
      (if 0 < (s mid).reference_of_mid then
        (if (s mid).reference_of_mid = mid then 0
         else visitGo f s (RTask.one (s mid).reference_of_mid) j)
       else visitGo f s (RTask.seq mid 1 (s mid).size) j)
    else 0
  | f+1, s, RTask.seq mid idx size, j =>
    if idx ≤ size then
      visitGo f s (RTask.one (mid + idx)) j + visitGo f s (RTask.seq mid (idx + 1) size) j
    else 0

/-- visitCount for the public require(mid). -/
def visitCount (f : Nat) (s : Store) (mid j : Int) : Nat :=
  visitGo f s (RTask.one mid) j

/-! ## Data-set compiler (resolveTRDPDataSets) -/

/-- One emitted element record. -/
structure Element where
  name : Option Str
  typeId : Str
  arraySize : Option Str
deriving DecidableEq, Repr

/-- One emitted data-set record. -/
structure DataSet where
  name : Option Str
  id : Str
  elements : List Element
deriving DecidableEq, Repr

/-- The root-selection condition of the compiler's for loop:
not a reference or array, fields to follow, and actually required
(ref_cnt > -1 + requiredOnly). -/
def selCond (requiredOnly : Bool) (e : TypeEntry) : Bool :=
  e.reference_of_mid ≤ 0 ∧ 0 < e.size ∧
    (-1 + (if requiredOnly then (1 : Int) else 0)) < (e.ref_cnt : Int)

/-- The compiler's scan over the store: index `i` starts at 0; a selected
root contributes itself and skips its `size` following identifiers
(`i += mid_map[i].size` before the loop increment).  The fuel starts at
16384 and decreases by one as `i` increases by one, so `i < SCADE_MIDs`
and fuel exhaustion coincide. -/
def rootsAux (s : Store) (ro : Bool) : Nat → Int → Nat → List Int
  | 0, _, _ => []
  | f+1, i, skip+1 => rootsAux s ro f (i+1) skip
  | f+1, i, 0 =>
    if i < SCADE_MIDs then
      if selCond ro (s i) then i :: rootsAux s ro f (i+1) (s i).size.toNat
      else rootsAux s ro f (i+1) 0
    else []

/-- The identifiers the compiler emits a data-set record for, in order. -/
def compileRoots (s : Store) (ro : Bool) : List Int :=
  rootsAux s ro 16384 0 0

/-- The compiler's array test on a chain link:
`reference_of_mid >= 0 && size > 0`. -/
def isArrayEntry (s : Store) (k : Int) : Bool :=
  0 ≤ (s k).reference_of_mid ∧ 0 < (s k).size

/-- The successive values of `k` in the element resolution loop
`while (mid_map[k].reference_of_mid >= 0) k = mid_map[k].reference_of_mid;`,
as a list (each element is `k` after one assignment).  `none` when the loop
has not finished within the fuel — the C loop would still be running. -/
def chainPathF : Nat → Store → Int → Option (List Int)
  | 0, s, k => if 0 ≤ (s k).reference_of_mid then none else some []
  | f+1, s, k =>
    if 0 ≤ (s k).reference_of_mid then
      (chainPathF f s ((s k).reference_of_mid)).map
        (fun p => (s k).reference_of_mid :: p)
    else some []

/-- The loop body's processing of one chain link `k`: state is
(the `array` variable, the array-size attribute, diagnostics so far).
`dsi` is the data-set root `i`, `j` the element identifier, for the
diagnostic's identification triple. -/
def chainStep (s : Store) (dsi j : Int) (st : Int × Option Str × List Diag) (k : Int) :
    Int × Option Str × List Diag :=
  if isArrayEntry s k then
    if st.1 = 0 then (k, some (intToStr (s k).size), st.2.2)
    else (st.1, st.2.1,
      st.2.2 ++ [Diag.arrayOfArray (s dsi).dataSetId (s dsi).name (s j).name
        (s st.1).size (s k).size])
  else st

/-- Emission of one element record (the body of the inner for loop over `j`):
resolve the alias chain, record at most one array dimension, diagnose any
further one, and take the final link's dataSetId as the type. -/
def emitElement (f : Nat) (s : Store) (dsi j : Int) : Option (Element × List Diag) :=
  (chainPathF f s j).map (fun path =>
    (⟨(s j).name, (s (path.getLastD j)).dataSetId,
      (path.foldl (chainStep s dsi j) (0, none, [])).2.1⟩,
     (path.foldl (chainStep s dsi j) (0, none, [])).2.2))

/-- The elements of a data-set root: `cnt` elements starting at identifier `j`. -/
def emitElems (f : Nat) (s : Store) (dsi : Int) : Nat → Int → Option (List Element × List Diag)
  | 0, _ => some ([], [])
  | c+1, j =>
    (emitElement f s dsi j).bind (fun p =>
      (emitElems f s dsi c (j+1)).map (fun q => (p.1 :: q.1, p.2 ++ q.2)))

/-- Emission of one data-set record for root `i`. -/
def emitDataSet (f : Nat) (s : Store) (i : Int) : Option (DataSet × List Diag) :=
  (emitElems f s i (s i).size.toNat (i+1)).map
    (fun p => (⟨(s i).name, (s i).dataSetId, p.1⟩, p.2))

/-- Emission for a list of roots. -/
def emitDataSets (f : Nat) (s : Store) : List Int → Option (List DataSet × List Diag)
  | [] => some ([], [])
  | i :: rest =>
    (emitDataSet f s i).bind (fun p =>
      (emitDataSets f s rest).map (fun q => (p.1 :: q.1, p.2 ++ q.2)))

/-- resolveTRDPDataSets: one data-set record per selected root, in identifier
order. -/
def resolveTRDPDataSets (f : Nat) (s : Store) (requiredOnly : Bool) :
    Option (List DataSet × List Diag) :=
  emitDataSets f s (compileRoots s requiredOnly)

/-! ## The abstract document tree (the mxml collaborator's interface)

Elements with a tag, attributes and ordered children.  mxmlFindElement with
MXML_DESCEND_FIRST searches the direct children; with MXML_NO_DESCEND it
continues over the following siblings (together: iteration over all direct
children in document order); with MXML_DESCEND it walks the whole subtree
in document order. -/

inductive XNode where
  | elem (tag : Str) (attrs : List (Str × Str)) (children : List XNode)

def tagOf : XNode → Str
  | XNode.elem t _ _ => t

def attrsOf : XNode → List (Str × Str)
  | XNode.elem _ a _ => a

def childrenOf : XNode → List XNode
  | XNode.elem _ _ c => c

/-- mxmlElementGetAttr. -/
def getAttr (n : XNode) (a : Str) : Option Str :=
  ((attrsOf n).find? (fun p => decide (p.1 = a))).map (fun p => p.2)

/-- mxmlFindElement(n, n, tag, attr?, value?, MXML_DESCEND_FIRST): first direct
child with the tag (and, when given, the attribute value). -/
def findChildAttr (n : XNode) (tag : Str) (attr : Option (Str × Str)) : Option XNode :=
  (childrenOf n).find? (fun c =>
    decide (tagOf c = tag) &&
      (match attr with
       | none => true
       | some av => decide (getAttr c av.1 = some av.2)))

/-- The document-order (preorder) flattening of a forest of nodes, fuel-bounded
so that it stays a structural recursion. -/
def preorderWork : Nat → List XNode → Option (List XNode)
  | 0, _ => none
  | _+1, [] => some []
  | f+1, XNode.elem t a cs :: rest =>
    (preorderWork f (cs ++ rest)).map (fun l => XNode.elem t a cs :: l)

def mappingTag : Str := ("mapping").toList
def modelTag : Str := ("model").toList
def configTag : Str := ("config").toList
def optionTag : Str := ("option").toList
def packageTag : Str := ("package").toList
def typeTag : Str := ("type").toList
def structTag : Str := ("struct").toList
def fieldTag : Str := ("field").toList
def arrayTag : Str := ("array").toList
def predefTag : Str := ("predefType").toList
def operatorTag : Str := ("operator").toList
def inputTag : Str := ("input").toList
def outputTag : Str := ("output").toList
def nameAttr : Str := ("name").toList
def idAttr : Str := ("id").toList
def typeAttr : Str := ("type").toList
def baseTypeAttr : Str := ("baseType").toList
def sizeAttr : Str := ("size").toList
def valueAttr : Str := ("value").toList
def rootOptName : Str := ("root").toList

/-- The direct children carrying a tag, in document order (the C pattern
of DESCEND_FIRST followed by NO_DESCEND iteration). -/
def childrenTagged (n : XNode) (tag : Str) : List XNode :=
  (childrenOf n).filter (fun c => decide (tagOf c = tag))

/-! ## attrToInt -/

def isDigitCh (c : Char) : Bool :=
  decide (48 ≤ c.toNat) && decide (c.toNat ≤ 57)

/-- All-digit, non-empty decimal string to its value. -/
def parseDigits (cs : Str) : Option Int :=
  if cs = [] then none
  else if cs.all isDigitCh then
    some (cs.foldl (fun acc c => acc * 10 + ((c.toNat : Int) - 48)) 0)
  else none

/-- strtol with full consumption (the `!*ch_e` check of attrToInt): optional
leading blanks, optional sign, digits, nothing else. -/
def parseLong (cs : Str) : Option Int :=
  match cs.dropWhile (fun c => decide (c = ' ') || decide (c = Char.ofNat 9)) with
  | '-' :: ds => (parseDigits ds).map (fun n => -n)
  | '+' :: ds => parseDigits ds
  | ds => parseDigits ds

/-- attrToInt: the attribute exists, is non-empty, parses completely, and the
value lies within [mn, mx]; `none` is the C false return. -/
def attrToInt (n : XNode) (a : Str) (mn mx : Int) : Option Int :=
  match getAttr n a with
  | none => none
  | some v =>
    if v = [] then none
    else
      match parseLong v with
      | none => none
      | some val => if mn ≤ val ∧ val ≤ mx then some val else none

/-! ## Catalogue scanner (scanTypes and its passes) -/

/-- Case-insensitive string comparison (strcasecmp == 0). -/
def icaseEq (a b : Str) : Bool :=
  decide (a.map Char.toLower = b.map Char.toLower)

/-- The downward search `while (--dsid >= 0 && strcasecmp(...))` over
ScadeBaseTypes: the highest matching index, or -1. -/
def scanBase (nm : Str) : Nat → Int
  | 0 => if icaseEq nm (ScadeBaseTypes.getD 0 []) then 0 else -1
  | i+1 => if icaseEq nm (ScadeBaseTypes.getD (i+1) []) then ((i+1 : Nat) : Int) else scanBase nm i

/-- One predefType declaration.  A missing name attribute is modelled as no
match (the C would pass NULL to strcasecmp); no entry is created. -/
def scanPredefNode (s : Store) (t : XNode) : Store :=
  match getAttr t nameAttr with
  | none => s
  | some sctype_name =>
    match attrToInt t idAttr 1 (SCADE_MIDs - 1) with
    | none => s
    | some mid =>
      let dsid := scanBase sctype_name 17
      if 0 < dsid then
        (addType s mid none (-1) (if TRDP_COUNT ≤ dsid then KCG_SIZE_MAPS_TO else dsid) 0).1
      else s

/-- One array declaration. -/
def scanArrayNode (s : Store) (t : XNode) : Store :=
  match attrToInt t idAttr 1 (SCADE_MIDs - 1),
        attrToInt t baseTypeAttr 1 (SCADE_MIDs - 1),
        attrToInt t sizeAttr 1 65535 with
  | some mid, some emid, some cnt => (addType s mid none emid (-1) cnt).1
  | _, _, _ => s

/-- One field of a structure declaration; the Int accumulates the count of
successfully added fields. -/
def scanFieldNode (acc : Store × Int) (fnode : XNode) : Store × Int :=
  match attrToInt fnode idAttr 1 (SCADE_MIDs - 1),
        attrToInt fnode typeAttr 1 (SCADE_MIDs - 1) with
  | some fmid, some emid =>
    ((addType acc.1 fmid (getAttr fnode nameAttr) emid (-1) 0).1,
     acc.2 + (if (addType acc.1 fmid (getAttr fnode nameAttr) emid (-1) 0).2.1 then 1 else 0))
  | _, _ => acc

/-- One structure declaration: fields first, then the struct entry itself
with the accumulated field count. -/
def scanStructNode (s : Store) (t : XNode) : Store :=
  match attrToInt t idAttr 1 (SCADE_MIDs - 1) with
  | none => s
  | some mid =>
    ((addType ((childrenTagged t fieldTag).foldl scanFieldNode (s, 0)).1 mid none (-1) (-1)
      ((childrenTagged t fieldTag).foldl scanFieldNode (s, 0)).2).1)

/-- One named-alias (type) declaration: define the alias, then propagate its
name to the target when the define succeeded. -/
def scanTypeNode (pkgname : Option Str) (s : Store) (t : XNode) : Store :=
  match attrToInt t idAttr 1 (SCADE_MIDs - 1),
        attrToInt t typeAttr 1 (SCADE_MIDs - 1) with
  | some mid, some emid =>
    if (addType s mid (getAttr t nameAttr) emid (-1) 0).2.1 then
      (propagateName (addType s mid (getAttr t nameAttr) emid (-1) 0).1 emid
        (getAttr t nameAttr) pkgname).1
    else (addType s mid (getAttr t nameAttr) emid (-1) 0).1
  | _, _ => s

/-- The recursive package walk (scanTypes_recurse_pkg): for every package
child, stitch its name onto the prefix (maxlen (size_t)-1: effectively
unbounded), scan its type children, recurse into it, then continue with
the following siblings. -/
def scanPkgs : Nat → Option Str → Store → List XNode → Option Store
  | 0, _, _, _ => none
  | _+1, _, s, [] => some s
  | f+1, pn, s, c :: rest =>
    if tagOf c = packageTag then
      match scanPkgs f (strndup2 pn (getAttr c nameAttr) ('_') 18446744073709551615)
          ((childrenTagged c typeTag).foldl
            (scanTypeNode (strndup2 pn (getAttr c nameAttr) ('_') 18446744073709551615)) s)
          (childrenOf c) with
      | none => none
      | some s2 => scanPkgs f pn s2 rest
    else scanPkgs f pn s rest

/-- The model section of the document. -/
def modelNodeOf (doc : Option XNode) : Option XNode :=
  (doc.bind (fun d => findChildAttr d mappingTag none)).bind
    (fun m => findChildAttr m modelTag none)

/-- scanTypes: the four passes over the model section (predefType, array,
struct, type) followed by the recursive package walk.  A missing document
or model section scans nothing (every find on NULL yields NULL). -/
def scanTypes (f : Nat) (doc : Option XNode) (s : Store) : Option Store :=
  match modelNodeOf doc with
  | none => some s
  | some cat =>
    scanPkgs f none
      ((childrenTagged cat typeTag).foldl (scanTypeNode none)
        ((childrenTagged cat structTag).foldl scanStructNode
          ((childrenTagged cat arrayTag).foldl scanArrayNode
            ((childrenTagged cat predefTag).foldl scanPredefNode s))))
      (childrenOf cat)

/-! ## Operator locator (findOperator) -/

/-- Splitting a scoped name on the `::` separators (the strstr loop). -/
def splitScopedAux : Nat → Str → Str → List Str
  | 0, acc, _ => [acc.reverse]
  | _+1, acc, [] => [acc.reverse]
  | f+1, acc, ':' :: ':' :: rest => acc.reverse :: splitScopedAux f [] rest
  | f+1, acc, c :: rest => splitScopedAux f (c :: acc) rest

def splitScoped (nm : Str) : List Str :=
  splitScopedAux (nm.length + 1) [] nm

/-- The namespace walk: descend one direct package child per segment; a
missing segment leaves NULL, which every later find propagates. -/
def resolveScope (catnode : Option XNode) (segs : List Str) : Option XNode :=
  segs.foldl
    (fun acc tok => acc.bind (fun p => findChildAttr p packageTag (some (nameAttr, tok))))
    catnode

/-- Does a node match `operator` with the given name? -/
def matchesOp (leaf : Str) (c : XNode) : Bool :=
  decide (tagOf c = operatorTag) && decide (getAttr c nameAttr = some leaf)

/-- All operators with the leaf name among the strict descendants of the
resolved scope, in document order (the MXML_DESCEND search plus the
second search that detects ambiguity). -/
def operatorMatches (f : Nat) (scope : XNode) (leaf : Str) : Option (List XNode) :=
  (preorderWork f (childrenOf scope)).map (fun desc => desc.filter (matchesOp leaf))

/-- The outcome of the operator search: no match is a logged failure, one
match succeeds, several matches are the logged ambiguity failure. -/
def pickOperator (nm : Str) : Option (List XNode) → Option (Option XNode × List Diag)
  | none => none
  | some [] => some (none, [Diag.opNotFound nm])
  | some [op] => some (some op, [Diag.opFound nm])
  | some (_ :: _ :: _) => some (none, [Diag.opAmbiguous nm])

/-- The operator search inside the resolved scope; a NULL scope (an
unresolved namespace segment) propagates to the same not-found failure. -/
def findOperatorIn (f : Nat) (nm : Str) : Option XNode →
    Option (Option XNode × List Diag)
  | none => some (none, [Diag.opNotFound nm])
  | some p => pickOperator nm (operatorMatches f p ((splitScoped nm).getLastD []))

/-- findOperator: missing name, unresolved scope, absent operator and
ambiguous operator all yield NULL with a failure diagnostic. -/
def findOperator (f : Nat) (doc : Option XNode) : Option Str →
    Option (Option XNode × List Diag)
  | none => some (none, [Diag.opNotDefined])
  | some nm =>
    findOperatorIn f nm (resolveScope (modelNodeOf doc) (splitScoped nm).dropLast)

/-- getRootName: the `root` option of the config section, when present and
shorter than 0x1000 characters. -/
def getRootName (f : Nat) (doc : Option XNode) : Option (Option Str) :=
  match (doc.bind (fun d => findChildAttr d mappingTag none)).bind
      (fun m => findChildAttr m configTag none) with
  | none => some none
  | some cat =>
    match preorderWork f (childrenOf cat) with
    | none => none
    | some desc =>
      match desc.filter (fun n => decide (tagOf n = optionTag) &&
          decide (getAttr n nameAttr = some rootOptName)) with
      | [] => some none
      | n :: _ =>
        match getAttr n valueAttr with
        | none => some none
        | some v => some (if v.length < 4096 then some v else none)

/-! ## Requiring an operator's parameters and the whole pipeline -/

/-- getInputsForOperator / getOutputsForOperator: for every direct `input`
(resp. `output`) child whose type attribute parses in [0, SCADE_MIDs-1],
mark the type required. -/
def requireParams (f : Nat) (s : Store) (op : XNode) (tag : Str) : Option Store :=
  (childrenTagged op tag).foldl
    (fun acc i =>
      match acc with
      | none => none
      | some st =>
        match attrToInt i typeAttr 0 (SCADE_MIDs - 1) with
        | none => some st
        | some mid => (require f st mid).map (fun p => p.1))
    (some s)

/-- The require calls main makes for the located operator; a NULL operator
has no inputs or outputs to require. -/
def requireOperator (f : Nat) (s : Store) (op : Option XNode) : Option Store :=
  match op with
  | none => some s
  | some o => (requireParams f s o inputTag).bind (fun s1 => requireParams f s1 o outputTag)

/-- The exit status main always returns after running the pipeline. -/
def successStatus : Int := 0

/-- The operator name main resolves: an explicit argument wins, otherwise the
config section's root option is consulted. -/
def chosenRootName (f : Nat) (itree : Option XNode) : Option Str → Option (Option Str)
  | some nm => some (some nm)
  | none => getRootName f itree

/-- The pipeline of main after argument parsing: scan the (possibly failed)
parse tree, locate the operator (an explicit argument wins over the
config's root option), require its parameters, compile, and write the
document only when at least one data-set was emitted.  The result pairs
the process exit status with the written data-set list (`none` inside
means no output document was written). -/
def runPipeline (f : Nat) (itree : Option XNode) (opArg : Option Str)
    (requiredOnly : Bool) : Option (Int × Option (List DataSet)) :=
  (scanTypes f itree initStore).bind (fun s1 =>
  (chosenRootName f itree opArg).bind (fun rootName =>
  (findOperator f itree rootName).bind (fun opr =>
  (requireOperator f s1 opr.1).bind (fun s2 =>
  (resolveTRDPDataSets f s2 requiredOnly).map (fun (dsp : List DataSet × List Diag) =>
    (successStatus, if dsp.1.isEmpty then none else some dsp.1))))))

/-! ## Lemmas about the reachability analyzer -/

/-- Two stores agreeing on the static fields that drive require's recursion. -/
def ShapeEq (s t : Store) : Prop :=
  ∀ i, (s i).reference_of_mid = (t i).reference_of_mid ∧ (s i).size = (t i).size

theorem shapeEq_refl (s : Store) : ShapeEq s s := fun _ => ⟨rfl, rfl⟩

theorem shapeEq_trans {a b c : Store} (h1 : ShapeEq a b) (h2 : ShapeEq b c) :
    ShapeEq a c :=
  fun i => ⟨(h1 i).1.trans (h2 i).1, (h1 i).2.trans (h2 i).2⟩

theorem updateStore_same (s : Store) (i : Int) (e : TypeEntry) :
    updateStore s i e i = e := by
  simp [updateStore]

theorem updateStore_other (s : Store) (i : Int) (e : TypeEntry) (j : Int)
    (h : j ≠ i) : updateStore s i e j = s j := by
  simp [updateStore, h]

theorem bump_ref_cnt (s : Store) (m j : Int) :
    (bump s m j).ref_cnt = (s j).ref_cnt + (if j = m then 1 else 0) := by
  by_cases h : j = m <;> simp [bump, updateStore, h]

theorem shapeEq_bump (s : Store) (m : Int) : ShapeEq (bump s m) s := by
  intro i
  by_cases h : i = m <;> simp [bump, updateStore, h]

/-- require never changes `reference_of_mid` or `size`. -/
theorem requireGo_shape :
    ∀ (f : Nat) (s : Store) (t : RTask) (out : Store × Int × List Diag),
      requireGo f s t = some out → ShapeEq out.1 s := by
  intro f
  induction f with
  | zero => intro s t out h; simp [requireGo] at h
  | succ f ih =>
    intro s t out h
    cases t with
    | one mid =>
      simp only [requireGo] at h
      split at h
      · split at h
        · split at h
          · simp only [Option.some.injEq] at h
            subst h
            exact shapeEq_bump s mid
          · rcases hrec : requireGo f (bump s mid) (RTask.one (s mid).reference_of_mid)
              with _ | p
            · rw [hrec] at h; simp at h
            · rw [hrec] at h
              simp only [Option.map_some', Option.some.injEq] at h
              subst h
              exact shapeEq_trans (ih _ _ p hrec) (shapeEq_bump s mid)
        · rcases hrec : requireGo f (bump s mid) (RTask.seq mid 1 (s mid).size)
            with _ | p
          · rw [hrec] at h; simp at h
          · rw [hrec] at h
            simp only [Option.map_some', Option.some.injEq] at h
            subst h
            exact shapeEq_trans (ih _ _ p hrec) (shapeEq_bump s mid)
      · simp only [Option.some.injEq] at h
        subst h
        exact shapeEq_refl s
    | seq mid idx size =>
      simp only [requireGo] at h
      split at h
      · rcases h1 : requireGo f s (RTask.one (mid + idx)) with _ | p
        · rw [h1] at h; simp at h
        · rw [h1] at h
          simp only [Option.some_bind] at h
          rcases h2 : requireGo f p.1 (RTask.seq mid (idx + 1) size) with _ | q
          · rw [h2] at h; simp at h
          · rw [h2] at h
            simp only [Option.map_some', Option.some.injEq] at h
            subst h
            exact shapeEq_trans (ih _ _ q h2) (ih _ _ p h1)
      · simp only [Option.some.injEq] at h
        subst h
        exact shapeEq_refl s

/-- visitGo reads only the static shape of the store. -/
theorem visitGo_congr :
    ∀ (f : Nat) (s t : Store) (tk : RTask) (j : Int), ShapeEq s t →
      visitGo f s tk j = visitGo f t tk j := by
  intro f
  induction f with
  | zero => intro s t tk j _; simp [visitGo]
  | succ f ih =>
    intro s t tk j hst
    cases tk with
    | one mid =>
      simp only [visitGo, (hst mid).1, (hst mid).2]
      by_cases hin : 0 < mid ∧ mid < SCADE_MIDs
      · simp only [if_pos hin]
        by_cases href : 0 < (t mid).reference_of_mid
        · simp only [if_pos href]
          by_cases hself : (t mid).reference_of_mid = mid
          · simp [hself]
          · simp only [if_neg hself, ih s t _ j hst]
        · simp only [if_neg href, ih s t _ j hst]
      · simp [hin]
    | seq mid idx size =>
      simp only [visitGo]
      by_cases hle : idx ≤ size
      · simp only [if_pos hle, ih s t _ j hst]
      · simp [hle]

/-- The exact effect of require on the reference counters: each slot is
incremented once per visit of the walk, and nothing else changes. -/
theorem requireGo_count :
    ∀ (f : Nat) (s : Store) (t : RTask) (out : Store × Int × List Diag),
      requireGo f s t = some out →
      ∀ j, (out.1 j).ref_cnt = (s j).ref_cnt + visitGo f s t j := by
  intro f
  induction f with
  | zero => intro s t out h; simp [requireGo] at h
  | succ f ih =>
    intro s t out h j
    cases t with
    | one mid =>
      simp only [requireGo] at h
      simp only [visitGo]
      split at h
      case isTrue hin =>
        simp only [if_pos hin]
        split at h
        case isTrue href =>
          simp only [if_pos href]
          split at h
          case isTrue hself =>
            simp only [Option.some.injEq] at h
            subst h
            simp only [if_pos hself, bump_ref_cnt]
            omega
          case isFalse hself =>
            rcases hrec : requireGo f (bump s mid) (RTask.one (s mid).reference_of_mid)
              with _ | p
            · rw [hrec] at h; simp at h
            · rw [hrec] at h
              simp only [Option.map_some', Option.some.injEq] at h
              subst h
              dsimp only
              have hv := ih _ _ p hrec j
              have hcg := visitGo_congr f (bump s mid) s
                (RTask.one (s mid).reference_of_mid) j (shapeEq_bump s mid)
              simp only [if_neg hself]
              rw [hv, hcg, bump_ref_cnt]
              omega
        case isFalse href =>
          simp only [if_neg href]
          rcases hrec : requireGo f (bump s mid) (RTask.seq mid 1 (s mid).size)
            with _ | p
          · rw [hrec] at h; simp at h
          · rw [hrec] at h
            simp only [Option.map_some', Option.some.injEq] at h
            subst h
            dsimp only
            have hv := ih _ _ p hrec j
            have hcg := visitGo_congr f (bump s mid) s
              (RTask.seq mid 1 (s mid).size) j (shapeEq_bump s mid)
            rw [hv, hcg, bump_ref_cnt]
            omega
      case isFalse hin =>
        simp only [Option.some.injEq] at h
        subst h
        simp [hin]
    | seq mid idx size =>
      simp only [requireGo] at h
      simp only [visitGo]
      split at h
      case isTrue hle =>
        simp only [if_pos hle]
        rcases h1 : requireGo f s (RTask.one (mid + idx)) with _ | p
        · rw [h1] at h; simp at h
        · rw [h1] at h
          simp only [Option.some_bind] at h
          rcases h2 : requireGo f p.1 (RTask.seq mid (idx + 1) size) with _ | q
          · rw [h2] at h; simp at h
          · rw [h2] at h
            simp only [Option.map_some', Option.some.injEq] at h
            subst h
            dsimp only
            have hv1 := ih _ _ p h1 j
            have hv2 := ih _ _ q h2 j
            have hcg := visitGo_congr f p.1 s (RTask.seq mid (idx + 1) size) j
              (requireGo_shape f s _ p h1)
            rw [hv2, hcg, hv1]
            omega
      case isFalse hle =>
        simp only [Option.some.injEq] at h
        subst h
        simp [hle]

/-! ## Lemmas about the compiler's root scan -/

theorem rootsAux_succ_skip (s : Store) (ro : Bool) (f : Nat) (i : Int) (k : Nat) :
    rootsAux s ro (f+1) i (k+1) = rootsAux s ro f (i+1) k := rfl

theorem rootsAux_succ_zero (s : Store) (ro : Bool) (f : Nat) (i : Int) :
    rootsAux s ro (f+1) i 0 =
      if i < SCADE_MIDs then
        if selCond ro (s i) then i :: rootsAux s ro f (i+1) (s i).size.toNat
        else rootsAux s ro f (i+1) 0
      else [] := rfl

/-- When nothing at or above `i` satisfies the selection condition, the scan
from `i` yields nothing. -/
theorem rootsAux_nil (s : Store) (ro : Bool) :
    ∀ (f : Nat) (i : Int), (∀ j : Int, i ≤ j → selCond ro (s j) = false) →
      rootsAux s ro f i 0 = [] := by
  intro f
  induction f with
  | zero => intro i _; rfl
  | succ f ih =>
    intro i h
    rw [rootsAux_succ_zero]
    split
    · rw [if_neg (by rw [h i le_rfl]; simp)]
      exact ih (i+1) (fun j hj => h j (by omega))
    · rfl

/-- Every emitted root satisfies the selection condition. -/
theorem rootsAux_sound (s : Store) (ro : Bool) :
    ∀ (f : Nat) (i : Int) (k : Nat) (j : Int),
      j ∈ rootsAux s ro f i k → selCond ro (s j) = true := by
  intro f
  induction f with
  | zero => intro i k j h; simp [rootsAux] at h
  | succ f ih =>
    intro i k j h
    match k with
    | k+1 => exact ih (i+1) k j h
    | 0 =>
      rw [rootsAux_succ_zero] at h
      split at h
      · split at h
        case isTrue hsel =>
          rcases List.mem_cons.mp h with h1 | h2
          · subst h1; exact hsel
          · exact ih _ _ _ h2
        case isFalse => exact ih _ _ _ h
      · simp at h

/-- Every entry that satisfies the selection condition but is not emitted
lies inside the field run of some emitted root (the scan's skip). -/
theorem rootsAux_complete (s : Store) (ro : Bool) :
    ∀ (f : Nat) (i : Int) (k : Nat) (j : Int),
      i ≤ j → j < SCADE_MIDs → selCond ro (s j) = true →
      SCADE_MIDs - i ≤ (f : Int) → i + (k : Int) ≤ j →
      j ∉ rootsAux s ro f i k →
      ∃ r ∈ rootsAux s ro f i k, r < j ∧ j ≤ r + (s r).size := by
  intro f
  induction f with
  | zero =>
    intro i k j hij hjN _ hfuel _ _
    exfalso
    push_cast at hfuel
    omega
  | succ f ih =>
    intro i k j hij hjN hsel hfuel hk hmem
    match k with
    | kk+1 =>
      exact ih (i+1) kk j (by push_cast at hk; omega) hjN hsel
        (by push_cast at hfuel ⊢; omega) (by push_cast at hk ⊢; omega) hmem
    | 0 =>
      rw [rootsAux_succ_zero] at hmem ⊢
      by_cases hiN : i < SCADE_MIDs
      · rw [if_pos hiN] at hmem ⊢
        by_cases hseli : selCond ro (s i) = true
        · rw [if_pos hseli] at hmem ⊢
          by_cases hji : j = i
          · exact absurd (by rw [hji]; exact List.mem_cons_self _ _) hmem
          · have hij2 : i < j := lt_of_le_of_ne hij (Ne.symm hji)
            by_cases hcover : j ≤ i + (s i).size
            · exact ⟨i, List.mem_cons_self _ _, hij2, hcover⟩
            · have hsz : 0 < (s i).size := by
                simp [selCond] at hseli
                exact hseli.2.1
              have hnat : (((s i).size.toNat : Int)) = (s i).size :=
                Int.toNat_of_nonneg (le_of_lt hsz)
              have hmem2 : j ∉ rootsAux s ro f (i+1) (s i).size.toNat :=
                fun hx => hmem (List.mem_cons_of_mem _ hx)
              obtain ⟨r, hr, hrj, hrc⟩ := ih (i+1) ((s i).size.toNat) j (by omega) hjN hsel
                (by push_cast at hfuel ⊢; omega) (by rw [hnat]; omega) hmem2
              exact ⟨r, List.mem_cons_of_mem _ hr, hrj, hrc⟩
        · rw [if_neg hseli] at hmem ⊢
          have hji : j ≠ i := fun hx => hseli (hx ▸ hsel)
          exact ih (i+1) 0 j (by omega) hjN hsel
            (by push_cast at hfuel ⊢; omega) (by push_cast; omega) hmem
      · exfalso
        omega

/-! ## Claim C1: what the compiler selects -/

/-- Claim C1 (amended): every emitted data-set root satisfies
"Fields(n>0) and (includeAllKnown or refCount > 0)" (so "required only"
never emits a refCount-0 data-set and a zero-field structure is never a
root); conversely, an entry satisfying the condition that is NOT emitted
lies within the contiguous field run of an earlier emitted root, which
the scan skips. -/
theorem C1_compiler_selection (s : Store) (ro : Bool) :
    (∀ j ∈ compileRoots s ro, selCond ro (s j) = true) ∧
    (∀ j : Int, 0 ≤ j → j < SCADE_MIDs → selCond ro (s j) = true →
      j ∉ compileRoots s ro →
      ∃ r ∈ compileRoots s ro, r < j ∧ j ≤ r + (s r).size) := by
  constructor
  · intro j hj
    exact rootsAux_sound s ro 16384 0 0 j hj
  · intro j h0 hN hsel hmem
    exact rootsAux_complete s ro 16384 0 0 j h0 hN hsel (by decide)
      (by push_cast; omega) hmem

/-- A store with two adjacent structures: entry 1 is Fields(1) and entry 2 is
Fields(1) as well (entry 2 doubling as entry 1's single field slot); the
scanner can build it from `<struct id=1><field id=5 type=6/></struct>
<struct id=2>...</struct>`-shaped input since field slots are only counted,
not checked for adjacency. -/
def c1store : Store :=
  updateStore (updateStore initStore
    1 ⟨[], 1001, 0, -1, 1, none⟩)
    2 ⟨[], 1002, 0, -1, 1, none⟩

/-- The scan on c1store emits only entry 1: entry 2 is skipped as part of
entry 1's field run. -/
theorem c1store_roots : compileRoots c1store false = [1] := by
  have h1 : rootsAux c1store false 16384 0 0 = rootsAux c1store false 16383 1 0 := by
    rw [show (16384:ℕ) = 16383+1 from rfl, rootsAux_succ_zero,
      if_pos (show (0:Int) < SCADE_MIDs from by decide),
      if_neg (show ¬ (selCond false (c1store 0) = true) from by decide)]
    norm_num
  have h2 : rootsAux c1store false 16383 1 0 = 1 :: rootsAux c1store false 16382 2 1 := by
    rw [show (16383:ℕ) = 16382+1 from rfl, rootsAux_succ_zero,
      if_pos (show (1:Int) < SCADE_MIDs from by decide),
      if_pos (show selCond false (c1store 1) = true from by decide)]
    rfl
  have h3 : rootsAux c1store false 16382 2 1 = rootsAux c1store false 16381 3 0 :=
    rootsAux_succ_skip c1store false 16381 2 0
  have h4 : rootsAux c1store false 16381 3 0 = [] := by
    apply rootsAux_nil
    intro j hj
    have hdef : c1store j = defaultEntry := by
      unfold c1store
      rw [updateStore_other _ _ _ _ (by omega), updateStore_other _ _ _ _ (by omega)]
      rfl
    rw [hdef]
    decide
  show rootsAux c1store false 16384 0 0 = [1]
  rw [h1, h2, h3, h4]

/-- Counterexample to claim C1 as stated: with "include all known", entry 2 of
c1store is a structure with one field (Fields(1)) and satisfies the claimed
selection predicate, yet no data-set record is emitted for it. -/
theorem C1_counterexample :
    (c1store 2).reference_of_mid = -1 ∧ 0 < (c1store 2).size ∧
    selCond false (c1store 2) = true ∧
    (2 : Int) ∉ compileRoots c1store false := by
  refine ⟨by decide, by decide, by decide, ?_⟩
  rw [c1store_roots]
  decide

/-- One non-selected scan step. -/
theorem rootsAux_step_not (s : Store) (ro : Bool) (f : Nat) (i : Int)
    (hiN : i < SCADE_MIDs) (h : selCond ro (s i) = false) :
    rootsAux s ro (f+1) i 0 = rootsAux s ro f (i+1) 0 := by
  rw [rootsAux_succ_zero, if_pos hiN, if_neg (by rw [h]; simp)]

/-- One selected scan step. -/
theorem rootsAux_step_sel (s : Store) (ro : Bool) (f : Nat) (i : Int)
    (hiN : i < SCADE_MIDs) (h : selCond ro (s i) = true) :
    rootsAux s ro (f+1) i 0 = i :: rootsAux s ro f (i+1) (s i).size.toNat := by
  rw [rootsAux_succ_zero, if_pos hiN, if_pos h]

/-- One skip step. -/
theorem rootsAux_skip1 (s : Store) (ro : Bool) (f : Nat) (i : Int) :
    rootsAux s ro (f+1) i 1 = rootsAux s ro f (i+1) 0 :=
  rootsAux_succ_skip s ro f i 0

/-- A store in which nothing is required compiles, in "required only" mode,
to no data-sets at all. -/
theorem compileRoots_no_ref (s : Store) (h : ∀ i, (s i).ref_cnt = 0) :
    compileRoots s true = [] := by
  apply rootsAux_nil
  intro j _
  simp [selCond, h j]

/-- The empty store compiles to no data-sets in either mode. -/
theorem initStore_roots (ro : Bool) : compileRoots initStore ro = [] := by
  apply rootsAux_nil
  intro j _
  simp [selCond, initStore, defaultEntry]

/-! ## Claim C2: the effect of require on reference counters -/

/-- Claim C2 (amended): one call of require(id) increments every slot's
refCount by exactly the number of times the recursive walk visits it —
the entry itself once, every transitively reachable entry once per
distinct Alias/Fields path — and leaves every unvisited slot unchanged,
so repeated calls increase the counters monotonically. -/
theorem C2_require_visit_counts (f : Nat) (s : Store) (mid : Int)
    (out : Store × Int × List Diag) (h : require f s mid = some out) :
    ∀ j, (out.1 j).ref_cnt = (s j).ref_cnt + visitCount f s mid j :=
  requireGo_count f s (RTask.one mid) out h

/-- A store with a structure (id 1, two fields) whose fields (ids 2, 3) both
reference the same primitive (id 4): the shape `<struct id=1> <field id=2
type=4/> <field id=3 type=4/> </struct> <predefType id=4 name=int32/>`
produces. -/
def cs2 : Store :=
  updateStore (updateStore (updateStore (updateStore initStore
    1 ⟨[], 1001, 0, -1, 2, none⟩)
    2 ⟨[], 1002, 0, 4, 0, none⟩)
    3 ⟨[], 1003, 0, 4, 0, none⟩)
    4 ⟨("INT32").toList, 6, 0, -1, 0, none⟩

/-- Counterexample to claim C2 as stated: on `cs2`, the entry 4 is
transitively reachable from the structure 1, its refCount starts at 0,
yet a single require(1) raises it to 2 (once per path through each
field), not to 1. -/
theorem C2_counterexample :
    (require 10 cs2 1).map
      (fun p => ((p.1 1).ref_cnt, (p.1 2).ref_cnt, (p.1 3).ref_cnt, (p.1 4).ref_cnt))
      = some (1, 1, 1, 2)
    ∧ (cs2 4).ref_cnt = 0 := by
  constructor
  · decide
  · decide

/-- Witness for C2: the amended theorem applied to the concrete store. -/
theorem C2_witness :
    ((bump (bump (bump (bump (bump cs2 1) 2) 4) 3) 4) 4).ref_cnt
      = (cs2 4).ref_cnt + visitCount 10 cs2 1 4 :=
  C2_require_visit_counts 10 cs2 1
    (bump (bump (bump (bump (bump cs2 1) 2) 4) 3) 4, 1, []) rfl 4

/-! ## Claim C4: double definition and out-of-range definition -/

/-- Claim C4: a successful addType followed by a second addType on the same
identifier leaves the first definition's entry (indeed the whole store)
unchanged, reports the conflict, and returns false; an out-of-range
identifier returns false with the store unchanged. -/
theorem C4_define_conflict (s : Store) (mid : Int) (nm nm2 : Option Str)
    (ty dsid cnt ty2 dsid2 cnt2 : Int) :
    (∀ s1 d1, addType s mid nm ty dsid cnt = (s1, true, d1) →
      addType s1 mid nm2 ty2 dsid2 cnt2 = (s1, false, [Diag.critRedefined mid])) ∧
    ((mid ≤ 0 ∨ SCADE_MIDs ≤ mid) →
      addType s mid nm ty dsid cnt = (s, false, [Diag.errOffScope mid])) := by
  constructor
  · intro s1 d1 h
    simp only [addType] at h
    split at h
    case isFalse hin => simp at h
    case isTrue hin =>
      split at h
      case isFalse hdef => simp at h
      case isTrue hdef =>
        split at h
        case isTrue huser =>
          injection h with h1 h2
          subst h1
          have hd : (updateStore s mid
              (⟨(intToStr (1000 + mid)).take 11, 1000 + mid, 0, ty, cnt, nm⟩ : TypeEntry)
              mid).dsid = 1000 + mid := by
            rw [updateStore_same]
          simp only [addType, if_pos hin, hd]
          rw [if_neg (by omega)]
        case isFalse hprim =>
          injection h with h1 h2
          subst h1
          have hd : (updateStore s mid
              (⟨ScadeTypeIdx2TRDP.getD dsid.toNat [], dsid, 0, -1, 0, none⟩ : TypeEntry)
              mid).dsid = dsid := by
            rw [updateStore_same]
          simp only [addType, if_pos hin, hd]
          rw [if_neg (by omega)]
  · intro hout
    simp only [addType]
    rw [if_neg]
    simp only [SCADE_MIDs] at hout ⊢
    omega

/-! ## Claim C5: name propagation -/

/-- strndup2 on two present strings with the underscore separator and the
30-character data-set budget. -/
theorem strndup2_underscore (a b : Str) :
    strndup2 (some a) (some b) ('_') 30
      = some (if 30 < a.length + 1 + b.length
          then (a ++ ('_') :: b).drop (a.length + 1 + b.length - 30)
          else a ++ ('_') :: b) := by
  have h95 : ('_').toNat = 95 := rfl
  simp only [strndup2, h95]
  norm_num [List.singleton_append]

/-- Claim C5: propagateName on a named alias whose target is a defined,
still-anonymous structure stores prefix ++ underscore ++ name, truncated
to the trailing 30 characters when the concatenation is longer; it fails
(store unchanged, false) when the target already has a name or is not a
structure with at least one field. -/
theorem C5_propagate_name (s : Store) (mid : Int) (nm pre : Str) (prop : Option Str) :
    ((0 < mid ∧ mid < SCADE_MIDs) →
      (s mid).reference_of_mid < 0 → 0 < (s mid).size → 0 < (s mid).dsid →
      (s mid).name = none →
      propagateName s mid (some nm) (some pre)
        = (updateStore s mid { s mid with
            name := some (if 30 < pre.length + 1 + nm.length
              then (pre ++ ('_') :: nm).drop (pre.length + 1 + nm.length - 30)
              else pre ++ ('_') :: nm) }, true, [])) ∧
    ((0 < mid ∧ mid < SCADE_MIDs) →
      (s mid).reference_of_mid < 0 → 0 < (s mid).size → 0 < (s mid).dsid →
      (s mid).name = some nm →
      propagateName s mid prop (some pre)
        = (s, false, [Diag.critRename mid (s mid).name prop])) ∧
    (¬ ((s mid).reference_of_mid < 0 ∧ 0 < (s mid).size) →
      propagateName s mid prop (some pre) = (s, false, [])) := by
  refine ⟨?_, ?_, ?_⟩
  · intro hin href hsz hdef hanon
    simp only [propagateName, if_pos hin, if_pos (And.intro href hsz), if_pos hdef,
      if_pos hanon, strndup2_underscore]
  · intro hin href hsz hdef hnm
    simp only [propagateName, if_pos hin, if_pos (And.intro href hsz), if_pos hdef]
    rw [if_neg]
    simp [hnm]
  · intro hns
    simp only [propagateName]
    by_cases hin : 0 < mid ∧ mid < SCADE_MIDs
    · simp [if_pos hin, if_neg hns]
    · simp [hin]

/-! ## Claim C3: array-of-array chains -/

theorem chainPathF_zero (s : Store) (k : Int) :
    chainPathF 0 s k = if 0 ≤ (s k).reference_of_mid then none else some [] := rfl

theorem chainPathF_succ (f : Nat) (s : Store) (k : Int) :
    chainPathF (f+1) s k =
      if 0 ≤ (s k).reference_of_mid then
        (chainPathF f s ((s k).reference_of_mid)).map
          (fun p => (s k).reference_of_mid :: p)
      else some [] := rfl

theorem chainStep_not_array (s : Store) (dsi j : Int) (st : Int × Option Str × List Diag)
    (k : Int) (h : isArrayEntry s k = false) : chainStep s dsi j st k = st := by
  simp [chainStep, h]

/-- Once the `array` variable holds a non-zero link, every further array link
only appends a diagnostic carrying the first dimension and its own. -/
theorem foldl_after_array (s : Store) (dsi j a : Int) (ha : a ≠ 0) :
    ∀ (l : List Int) (attr : Option Str) (ds : List Diag),
      l.foldl (chainStep s dsi j) (a, attr, ds) =
        (a, attr, ds ++ (l.filter (fun k => isArrayEntry s k)).map (fun k =>
          Diag.arrayOfArray (s dsi).dataSetId (s dsi).name (s j).name
            (s a).size (s k).size)) := by
  intro l
  induction l with
  | nil => intro attr ds; simp
  | cons k rest ih =>
    intro attr ds
    by_cases hk : isArrayEntry s k = true
    · have hstep : chainStep s dsi j (a, attr, ds) k =
          (a, attr, ds ++ [Diag.arrayOfArray (s dsi).dataSetId (s dsi).name (s j).name
            (s a).size (s k).size]) := by
        simp [chainStep, hk, ha]
      simp only [List.foldl_cons, hstep, ih, List.filter_cons_of_pos hk, List.map_cons,
        List.append_assoc, List.singleton_append]
    · have hk2 : isArrayEntry s k = false := by
        revert hk
        cases isArrayEntry s k <;> simp
      have hfil : List.filter (fun x => isArrayEntry s x) (k :: rest)
          = List.filter (fun x => isArrayEntry s x) rest := by
        simp [List.filter_cons, hk2]
      simp only [List.foldl_cons, chainStep_not_array s dsi j _ k hk2, ih, hfil]

/-- From the initial state, the first array link of the chain sets the
array-size attribute, and each further array link only adds a diagnostic. -/
theorem foldl_first_array (s : Store) (dsi j a : Int) (arest : List Int)
    (h0 : isArrayEntry s 0 = false) :
    ∀ (l : List Int), l.filter (fun k => isArrayEntry s k) = a :: arest →
      l.foldl (chainStep s dsi j) (0, none, []) =
        (a, some (intToStr (s a).size), arest.map (fun k =>
          Diag.arrayOfArray (s dsi).dataSetId (s dsi).name (s j).name
            (s a).size (s k).size)) := by
  intro l
  induction l with
  | nil => intro h; simp at h
  | cons k rest ih =>
    intro hf
    by_cases hk : isArrayEntry s k = true
    · rw [List.filter_cons_of_pos hk] at hf
      injection hf with hka hrest
      subst hka
      have ha : k ≠ 0 := by
        intro hz
        rw [hz] at hk
        rw [h0] at hk
        exact Bool.false_ne_true hk
      have hstep : chainStep s dsi j (0, none, []) k = (k, some (intToStr (s k).size), []) := by
        simp [chainStep, hk]
      rw [List.foldl_cons, hstep, foldl_after_array s dsi j k ha, hrest]
      simp
    · have hk2 : isArrayEntry s k = false := by
        revert hk
        cases isArrayEntry s k <;> simp
      have hfil : List.filter (fun x => isArrayEntry s x) (k :: rest)
          = List.filter (fun x => isArrayEntry s x) rest := by
        simp [List.filter_cons, hk2]
      rw [hfil] at hf
      rw [List.foldl_cons, chainStep_not_array s dsi j _ k hk2]
      exact ih hf

/-- Claim C3: for an emitted element whose alias chain contains two or more
array links, the element's array-size attribute carries exactly the first
dimension encountered, and one error diagnostic is logged per further
array link, identifying the data-set (id and name), the element and both
dimensions; the element is still emitted.  (Identifier 0 can never be an
array link: addType rejects id 0, so slot 0 stays zeroed.) -/
theorem C3_array_of_array (f : Nat) (s : Store) (dsi j a b : Int) (arest : List Int)
    (path : List Int)
    (hpath : chainPathF f s j = some path)
    (hfilter : path.filter (fun k => isArrayEntry s k) = a :: b :: arest)
    (h0 : isArrayEntry s 0 = false) :
    emitElement f s dsi j = some
      (⟨(s j).name, (s (path.getLastD j)).dataSetId, some (intToStr (s a).size)⟩,
       (b :: arest).map (fun k =>
         Diag.arrayOfArray (s dsi).dataSetId (s dsi).name (s j).name
           (s a).size (s k).size)) := by
  unfold emitElement
  rw [hpath, Option.map_some']
  rw [foldl_first_array s dsi j a (b :: arest) h0 path hfilter]

/-- A store with a structure (id 1) whose field (id 2) is an array (id 3,
size 5) of arrays (id 4, size 7) of a primitive (id 6): the shape an
array-of-array input produces. -/
def cs3 : Store :=
  updateStore (updateStore (updateStore (updateStore (updateStore initStore
    1 ⟨("1001").toList, 1001, 1, -1, 1, some (("A").toList)⟩)
    2 ⟨("1002").toList, 1002, 1, 3, 0, some (("f").toList)⟩)
    3 ⟨("1003").toList, 1003, 1, 4, 5, none⟩)
    4 ⟨("1004").toList, 1004, 1, 6, 7, none⟩)
    6 ⟨("INT32").toList, 6, 1, -1, 0, none⟩

/-- Witness for C3: on cs3, the element for field 2 is emitted with the first
dimension 5 only, and one diagnostic reports the 5 by 7 nesting. -/
theorem C3_witness :
    emitElement 10 cs3 1 2 = some
      (⟨some (("f").toList), ("INT32").toList, some (("5").toList)⟩,
       [Diag.arrayOfArray (("1001").toList) (some (("A").toList)) (some (("f").toList)) 5 7]) :=
  C3_array_of_array 10 cs3 1 2 3 4 [] [3, 4, 6] (by decide) (by decide) (by decide)

/-! ## Claim C6: termination of the walks on malformed stores -/

/-- A store in which the field (id 2) of structure 1 references the never
defined identifier 3 — producible from `<struct id=1><field id=2 type=3/>
</struct>` with no definition of 3. -/
def cs6 : Store :=
  updateStore (updateStore initStore
    1 ⟨("1001").toList, 1001, 1, -1, 1, none⟩)
    2 ⟨("1002").toList, 1002, 1, 3, 0, none⟩

/-- The compiler's chain walk, stuck forever on slot 0. -/
theorem cs6_chain_zero : ∀ f : Nat, chainPathF f cs6 0 = none := by
  intro f
  induction f with
  | zero => decide
  | succ f ih =>
    rw [chainPathF_succ]
    have e : (cs6 0).reference_of_mid = 0 := by decide
    rw [e, if_pos (show (0:Int) ≤ 0 from le_rfl), ih]
    rfl

/-- There is no fuel bound under which the element-resolution loop finishes
on cs6's field 2: the C while loop runs forever. -/
def chainWalkDiverges : Prop := ∀ f : Nat, chainPathF f cs6 2 = none

/-- Counterexample to claim C6 as stated: on the malformed-input store cs6
(an alias chain reaching the never-defined identifier 3), the Data-Set
Compiler's alias-chain resolution loop does not terminate: it steps
2 to 3 to 0 and then follows reference_of_mid = 0 to slot 0 forever. -/
theorem C6_counterexample : chainWalkDiverges := by
  intro f
  match f with
  | 0 => decide
  | 1 => decide
  | f+2 =>
    rw [chainPathF_succ]
    have e2 : (cs6 2).reference_of_mid = 3 := by decide
    rw [e2, if_pos (show (0:Int) ≤ 3 from by decide)]
    rw [chainPathF_succ]
    have e3 : (cs6 3).reference_of_mid = 0 := by decide
    rw [e3, if_pos (show (0:Int) ≤ 0 from le_rfl), cs6_chain_zero f]
    rfl

/-- Claim C6 (amended): require does cut direct self-reference — on any entry
with Alias(id) = id it terminates within a single frame, logging the
self-reference error and performing only that entry's increment; but
termination does NOT extend to every malformed store: an alias chain that
reaches a never-defined identifier makes the compiler's chain walk loop
forever (see the counterexample). -/
theorem C6_self_reference_cut (s : Store) (mid : Int)
    (hin : 0 < mid ∧ mid < SCADE_MIDs) (hself : (s mid).reference_of_mid = mid) :
    require 1 s mid
      = some (bump s mid, (if 0 < (s mid).size then 1 else 0), [Diag.errSelfRef mid]) := by
  unfold require
  rw [show (1:ℕ) = 0+1 from rfl]
  show (if 0 < mid ∧ mid < SCADE_MIDs then _ else _) = _
  rw [if_pos hin]
  have h1 : 0 < (s mid).reference_of_mid := by rw [hself]; exact hin.1
  rw [if_pos h1, if_pos hself]

/-- A store whose entry 5 aliases itself. -/
def cs6self : Store :=
  updateStore initStore 5 ⟨("1005").toList, 1005, 0, 5, 0, none⟩

/-- Witness for C6: the self-reference cut applied on the self-aliasing
entry 5. -/
theorem C6_witness :
    require 1 cs6self 5 = some (bump cs6self 5, 0, [Diag.errSelfRef 5]) :=
  C6_self_reference_cut cs6self 5 (by decide) (by decide)

/-! ## Claim C7: operator resolution failures -/

/-- The namespace walk stays NULL once a segment failed. -/
theorem resolveScope_none (segs : List Str) : resolveScope none segs = none := by
  induction segs with
  | nil => rfl
  | cons a l ih =>
    unfold resolveScope at ih ⊢
    rw [List.foldl_cons]
    simpa using ih

/-- Claim C7: findOperator yields a null operator and logs a failure when an
intermediate namespace segment is unresolved, when the leaf operator name
is absent from the resolved scope, and when the scope holds two or more
operators with the leaf name; a null operator has no parameters to
require, and a store in which nothing is required compiles (in the
default "required only" mode) to an empty data-set list. -/
theorem C7_operator_failures (f : Nat) (doc : Option XNode) (nm : Str) (s : Store) :
    (resolveScope (modelNodeOf doc) (splitScoped nm).dropLast = none →
      findOperator f doc (some nm) = some (none, [Diag.opNotFound nm])) ∧
    (∀ p, resolveScope (modelNodeOf doc) (splitScoped nm).dropLast = some p →
      operatorMatches f p ((splitScoped nm).getLastD []) = some [] →
      findOperator f doc (some nm) = some (none, [Diag.opNotFound nm])) ∧
    (∀ p o1 o2 rest, resolveScope (modelNodeOf doc) (splitScoped nm).dropLast = some p →
      operatorMatches f p ((splitScoped nm).getLastD []) = some (o1 :: o2 :: rest) →
      findOperator f doc (some nm) = some (none, [Diag.opAmbiguous nm])) ∧
    (requireOperator f s none = some s) ∧
    ((∀ i, (s i).ref_cnt = 0) → compileRoots s true = []) := by
  refine ⟨?_, ?_, ?_, rfl, compileRoots_no_ref s⟩
  · intro h1
    simp only [findOperator]
    rw [h1]
    simp only [findOperatorIn]
  · intro p h1 h2
    simp only [findOperator]
    rw [h1]
    simp only [findOperatorIn]
    rw [h2]
    simp only [pickOperator]
  · intro p o1 o2 rest h1 h2
    simp only [findOperator]
    rw [h1]
    simp only [findOperatorIn]
    rw [h2]
    simp only [pickOperator]

/-! ## Claim C8: the end-to-end scenario -/

/-- The scenario operator: Root with one input of type 4. -/
def rootOpNode : XNode :=
  XNode.elem operatorTag [(nameAttr, ("Root").toList)] [
    XNode.elem inputTag [(nameAttr, ("a").toList), (typeAttr, ("4").toList)] []]

/-- The scenario document: primitive int32 (id 1), structure S (id 2) with
field x (id 3, alias of 1), and inside package Pkg a named alias MyStruct
(id 4, alias of 2) plus the operator Root. -/
def scenarioDoc : XNode :=
  XNode.elem [] [] [
    XNode.elem mappingTag [] [
      XNode.elem modelTag [] [
        XNode.elem predefTag [(idAttr, ("1").toList), (nameAttr, ("int32").toList)] [],
        XNode.elem structTag [(idAttr, ("2").toList)] [
          XNode.elem fieldTag [(idAttr, ("3").toList), (nameAttr, ("x").toList),
            (typeAttr, ("1").toList)] []],
        XNode.elem packageTag [(nameAttr, ("Pkg").toList)] [
          XNode.elem typeTag [(idAttr, ("4").toList), (nameAttr, ("MyStruct").toList),
            (typeAttr, ("2").toList)] [],
          rootOpNode]]]]

/-- The store the scanner builds from scenarioDoc (checked below by rfl):
updates in scan order — predef 1, field 3, struct 2, alias 4, then the
name propagation rewriting entry 2. -/
def s8 : Store :=
  updateStore (updateStore (updateStore (updateStore (updateStore initStore
    1 ⟨("INT32").toList, 6, 0, -1, 0, none⟩)
    3 ⟨("1003").toList, 1003, 0, 1, 0, some (("x").toList)⟩)
    2 ⟨("1002").toList, 1002, 0, -1, 1, none⟩)
    4 ⟨("1004").toList, 1004, 0, 2, 0, some (("MyStruct").toList)⟩)
    2 ⟨("1002").toList, 1002, 0, -1, 1, some (("Pkg_MyStruct").toList)⟩

/-- The store after also requiring Root's single input (visit order
4, 2, 3, 1). -/
def s9 : Store := bump (bump (bump (bump s8 4) 2) 3) 1

theorem scenario_scan : scanTypes 50 (some scenarioDoc) initStore = some s8 := by rfl

theorem scenario_find :
    findOperator 50 (some scenarioDoc) (some (("Root").toList))
      = some (some rootOpNode, [Diag.opFound (("Root").toList)]) := by rfl

theorem scenario_require : requireOperator 50 s8 (some rootOpNode) = some s9 := by rfl

/-- The compiler on the scenario store selects exactly the structure 2. -/
theorem s9_roots : compileRoots s9 true = [2] := by
  show rootsAux s9 true 16384 0 0 = [2]
  rw [show (16384:ℕ) = 16383+1 from rfl,
    rootsAux_step_not s9 true 16383 0 (by decide) (by decide)]
  rw [show (16383:ℕ) = 16382+1 from rfl,
    rootsAux_step_not s9 true 16382 (0+1) (by decide) (by decide)]
  rw [show (16382:ℕ) = 16381+1 from rfl,
    rootsAux_step_sel s9 true 16381 (0+1+1) (by decide) (by decide)]
  show (2:Int) :: rootsAux s9 true (16380+1) 3 1 = [2]
  rw [rootsAux_skip1]
  rw [show (16380:ℕ) = 16379+1 from rfl,
    rootsAux_step_not s9 true 16379 (3+1) (by decide) (by decide)]
  have htail : rootsAux s9 true 16379 (3+1+1) 0 = [] := by
    apply rootsAux_nil
    intro j hj
    have h1 : j ≠ 1 := by omega
    have h2 : j ≠ 2 := by omega
    have h3 : j ≠ 3 := by omega
    have h4 : j ≠ 4 := by omega
    have hdef : s9 j = defaultEntry := by
      simp [s9, s8, bump, updateStore, initStore, h1, h2, h3, h4]
    rw [hdef]
    decide
  rw [htail]

/-- The compiled output on the scenario store. -/
theorem s9_resolve :
    resolveTRDPDataSets 50 s9 true
      = some ([⟨some (("Pkg_MyStruct").toList), ("1002").toList,
          [⟨some (("x").toList), ("INT32").toList, none⟩]⟩], []) := by
  unfold resolveTRDPDataSets
  rw [s9_roots]
  decide

/-- Claim C8: scanning the scenario document, requiring Root's parameters and
compiling with default settings yields exactly one data-set, named
Pkg_MyStruct with id 1002, whose single element x has the int32 canonical
code INT32 and no array-size attribute; the process exits with status 0
and writes the document. -/
theorem C8_end_to_end :
    runPipeline 50 (some scenarioDoc) (some (("Root").toList)) true
      = some (0, some [⟨some (("Pkg_MyStruct").toList), ("1002").toList,
          [⟨some (("x").toList), ("INT32").toList, none⟩]⟩]) := by
  unfold runPipeline
  rw [scenario_scan, Option.some_bind]
  rw [show chosenRootName 50 (some scenarioDoc) (some (("Root").toList))
      = some (some (("Root").toList)) from rfl, Option.some_bind]
  rw [scenario_find, Option.some_bind]
  dsimp only
  rw [scenario_require, Option.some_bind]
  rw [s9_resolve, Option.map_some']
  decide

/-! ## Claim C9: the exit status on unreadable or unparsable input -/

/-- The pipeline on a failed parse: nothing is scanned, no operator is found,
nothing is compiled, no document is written — and the exit status is 0. -/
theorem runPipeline_unparsable :
    runPipeline 100 none none true = some (0, none) := by
  have hres : resolveTRDPDataSets 100 initStore true = some ([], []) := by
    unfold resolveTRDPDataSets
    rw [initStore_roots]
    rfl
  unfold runPipeline
  rw [show scanTypes 100 none initStore = some initStore from rfl, Option.some_bind]
  rw [show chosenRootName 100 none none = some none from rfl, Option.some_bind]
  rw [show findOperator 100 none none = some (none, [Diag.opNotDefined]) from rfl,
    Option.some_bind]
  dsimp only
  rw [show requireOperator 100 initStore none = some initStore from rfl, Option.some_bind]
  rw [hres, Option.map_some']
  rfl

/-- Counterexample to claim C9 as stated: on unparsable input the program
writes no output document but terminates with the SUCCESS status 0, not
with an exit status different from the success status. -/
theorem C9_counterexample :
    runPipeline 100 none none true = some (successStatus, none) :=
  runPipeline_unparsable

/-- Claim C9 (amended): the pipeline never aborts and always exits with the
success status 0 — also on unreadable or unparsable input, which merely
produces no output document (no distinct exit signal exists). -/
theorem C9_exit_status (f : Nat) (itree : Option XNode) (opArg : Option Str)
    (ro : Bool) (code : Int) (out : Option (List DataSet))
    (h : runPipeline f itree opArg ro = some (code, out)) :
    code = successStatus ∧ (itree = none → out = none) := by
  unfold runPipeline at h
  rcases Option.bind_eq_some.mp h with ⟨s1, hs1, h2⟩
  rcases Option.bind_eq_some.mp h2 with ⟨rootName, hrn, h3⟩
  rcases Option.bind_eq_some.mp h3 with ⟨opr, hop, h4⟩
  rcases Option.bind_eq_some.mp h4 with ⟨s2, hreq, h5⟩
  rcases Option.map_eq_some'.mp h5 with ⟨dsp, hres, heq⟩
  injection heq with hc ho
  refine ⟨hc.symm, ?_⟩
  intro hnone
  subst hnone
  rw [show scanTypes f none initStore = some initStore from by rfl] at hs1
  rw [Option.some.injEq] at hs1
  subst hs1
  have hopr : opr.1 = none := by
    rcases opArg with _ | nm
    · rw [show chosenRootName f none none = some none from by rfl] at hrn
      rw [Option.some.injEq] at hrn
      subst hrn
      rw [show findOperator f none none = some (none, [Diag.opNotDefined]) from by rfl] at hop
      rw [Option.some.injEq] at hop
      rw [← hop]
    · rw [show chosenRootName f none (some nm) = some (some nm) from by rfl] at hrn
      rw [Option.some.injEq] at hrn
      subst hrn
      have hfo : findOperator f none (some nm) = some (none, [Diag.opNotFound nm]) := by
        simp only [findOperator]
        rw [show modelNodeOf none = none from by rfl, resolveScope_none]
        simp only [findOperatorIn]
      rw [hfo] at hop
      rw [Option.some.injEq] at hop
      rw [← hop]
  rw [hopr] at hreq
  rw [show requireOperator f initStore none = some initStore from by rfl] at hreq
  rw [Option.some.injEq] at hreq
  subst hreq
  unfold resolveTRDPDataSets at hres
  rw [initStore_roots] at hres
  rw [show emitDataSets f initStore [] = some ([], []) from by rfl] at hres
  rw [Option.some.injEq] at hres
  rw [hres.symm] at ho
  simpa using ho.symm

/-- Witness for C9: the amended theorem applied to the unparsable-input run. -/
theorem C9_witness :
    (0 : Int) = successStatus ∧
      ((none : Option XNode) = none → (none : Option (List DataSet)) = none) :=
  C9_exit_status 100 none none true 0 none runPipeline_unparsable

/-! ## Claim C10: the two truncation behaviours of strndup2 -/

/-- Claim C10: strndup2 returns NULL or at most maxlen characters; a single
present string is truncated keeping its LEADING maxlen characters, while
two stitched strings are truncated keeping the TRAILING characters (cut
from the front). -/
theorem C10_strndup2_truncation (s1 s2 : Option Str) (a b : Str) (sep : Char)
    (maxlen : Nat) (h : 0 < maxlen) :
    (∀ r, strndup2 s1 s2 sep maxlen = some r → r.length ≤ maxlen) ∧
    (strndup2 (some a) none sep maxlen = some (a.take maxlen)) ∧
    (strndup2 none (some a) sep maxlen = some (a.take maxlen)) ∧
    (sep.toNat ≠ 0 → maxlen < a.length + 1 + b.length →
      strndup2 (some a) (some b) sep maxlen
        = some ((a ++ [sep] ++ b).drop (a.length + 1 + b.length - maxlen))) := by
  refine ⟨?_, ?_, ?_, ?_⟩
  · intro r hr
    simp only [strndup2, if_neg h.ne'] at hr
    match s1, s2 with
    | none, none => simp at hr
    | some x, none =>
      simp only [Option.some.injEq] at hr
      subst hr
      simp [List.length_take]
    | none, some y =>
      simp only [Option.some.injEq] at hr
      subst hr
      simp [List.length_take]
    | some x, some y =>
      simp only [Option.some.injEq] at hr
      subst hr
      split
      · simp only [List.length_drop, List.length_append]
        split <;> simp <;> omega
      · simp only [List.length_append]
        split at *
        all_goals simp_all
        all_goals omega
  · simp [strndup2, h.ne']
  · simp [strndup2, h.ne']
  · intro hsep hml
    simp only [strndup2, if_neg h.ne']
    rw [if_neg hsep, if_pos hml]

/-- Witness for C10: the theorem applied at maxlen 4, with non-NULL prefix
("pkg") and name ("abc"): stitched truncation keeps the tail. -/
theorem C10_witness :
    strndup2 (some (("pkg").toList)) (some (("abc").toList)) ('_') 4
      = some (((("pkg").toList ++ [('_')] ++ ("abc").toList)).drop
          ((("pkg").toList).length + 1 + (("abc").toList).length - 4)) :=
  (C10_strndup2_truncation (some (("pkg").toList)) (some (("abc").toList))
    (("pkg").toList) (("abc").toList) ('_') 4 (by decide)).2.2.2
    (by decide) (by decide)

end Typebridge
